import Mathlib

/-!
Shallow embedding of `preprocess.py` from the characters-recognition
repository: the `Subset` and `Dataset` classes, numpy reshape / fancy
indexing as used there, and sklearn's `LabelEncoder` restricted to the
capabilities the code exercises (`fit`, `transform`, `inverse_transform`).

Numpy arrays are modelled as a shape together with the flat row-major
data; machine integer labels are modelled as `Int` (the label dtypes in
play never overflow in the operations used). Python exceptions
(`ValueError` from reshape / encoder domain misses, `AssertionError`,
`AttributeError`) are all modelled as `Option.none` results. The
randomness of `np.random.choice` is modelled by passing the drawn index
list as an explicit parameter together with the validity conditions that
`choice(arange(total), sample, replace=False)` guarantees.
-/

namespace Preprocess

/-- A numpy ndarray: row-major flat data plus a shape.  A well-formed
array satisfies `shape.prod = data.length`. -/
structure NDArray where
  shape : List Nat
  data : List Int
deriving DecidableEq, Repr

/-- Python `len(arr)`: the extent of the first axis (0 for the 0-d case,
which in the modelled code never reaches a `len` call that succeeds). -/
def NDArray.len (a : NDArray) : Nat := a.shape.headD 0

/-- Row size: number of scalar entries in one slice along axis 0. -/
def NDArray.rowSize (a : NDArray) : Nat := a.shape.tail.prod

/-- The flat data of slice `a[i]` along axis 0. -/
def NDArray.row (a : NDArray) (i : Nat) : List Int :=
  (a.data.drop (i * a.rowSize)).take a.rowSize

/-- The ndarray `a[i]` (one slice along axis 0). -/
def NDArray.rowArr (a : NDArray) (i : Nat) : NDArray :=
  ⟨a.shape.tail, a.row i⟩

/-- Numpy fancy indexing `a[index]` with an index array along axis 0. -/
def NDArray.selectRows (a : NDArray) (idx : List Nat) : NDArray :=
  ⟨idx.length :: a.shape.tail, (idx.map a.row).flatten⟩

/-- Resolve a numpy target shape (with at most one `-1` to be inferred)
against a total element count, as `np.reshape` does: with no `-1` the
product must equal the total; with one `-1` the product `p` of the given
dimensions must be nonzero and divide the total. -/
def knownProd (tgt : List Int) : Nat :=
  ((tgt.filter (fun d => d ≠ -1)).map Int.toNat).prod

def resolveShape (total : Nat) (tgt : List Int) : Option (List Nat) :=
  if tgt.any (fun d => d < -1) then none
  else if tgt.count (-1) = 0 then
    if (tgt.map Int.toNat).prod = total then some (tgt.map Int.toNat) else none
  else if tgt.count (-1) = 1 then
    if knownProd tgt ≠ 0 ∧ total % knownProd tgt = 0 then
      some (tgt.map fun d => if d = -1 then total / knownProd tgt else d.toNat)
    else none
  else none

/-- `np.reshape(a, tgt)`: same flat data, resolved shape. -/
def npReshape (a : NDArray) (tgt : List Int) : Option NDArray :=
  (resolveShape a.data.length tgt).map fun sh => ⟨sh, a.data⟩

/-- The label encoders `Dataset` can hand to `Subset`: the two shift
closures built under the `"shift"` policy, and a fitted sklearn
`LabelEncoder` (represented by its sorted distinct `classes_`). -/
inductive Enc where
  | shiftEnc (lb : Int)
  | shiftDec (lb : Int)
  | labelEnc (classes : List Int)
deriving DecidableEq, Repr

/-- `np.unique` (as used by `LabelEncoder.fit`): the sorted list of
distinct values. -/
def npUnique (l : List Int) : List Int :=
  l.dedup.insertionSort (fun a b => a ≤ b)

/-- `LabelEncoder().fit(y).classes_` over the flat label values. -/
def LabelEncoder.fit (y : List Int) : List Int := npUnique y

/-- Applying an encoder to a whole label array inside `Subset.__init__`:
the shift closures map elementwise; a fitted `LabelEncoder.transform`
requires a 1-d input all of whose values were seen at fit time, and
replaces each label by its index among the classes (raising, i.e. `none`,
on a domain miss). -/
def Enc.applyArr : Enc → NDArray → Option NDArray
  | .shiftEnc lb, y => some ⟨y.shape, y.data.map (fun v => v - lb)⟩
  | .shiftDec lb, y => some ⟨y.shape, y.data.map (fun v => v + lb)⟩
  | .labelEnc cs, y =>
      if y.shape.length = 1 ∧ y.data.all (fun v => v ∈ cs) then
        some ⟨y.shape, y.data.map (fun v => (cs.indexOf v : Int))⟩
      else none

/-- Calling the exposed encoder on one label: the shift closures are
plain functions; a `LabelEncoder` is used through `transform`, which
fails on a label outside its classes. -/
def Enc.encode1 : Enc → Int → Option Int
  | .shiftEnc lb, v => some (v - lb)
  | .shiftDec lb, v => some (v + lb)
  | .labelEnc cs, v =>
      if v ∈ cs then some (cs.indexOf v : Int) else none

/-- Calling the exposed decoder on one code: the shift closures are
plain functions; a `LabelEncoder` is used through `inverse_transform`,
which fails on a code outside `[0, len(classes_))`. -/
def Enc.decode1 : Enc → Int → Option Int
  | .shiftEnc lb, v => some (v - lb)
  | .shiftDec lb, v => some (v + lb)
  | .labelEnc cs, v =>
      if 0 ≤ v ∧ v.toNat < cs.length then some (cs.getD v.toNat 0) else none

/-- The `Subset` object after a successful `__init__`: the reshaped
feature array `_X` and the processed (flattened, possibly encoded) label
array `_y`. -/
structure Subset where
  _X : NDArray
  _y : NDArray
deriving DecidableEq, Repr

/-- Line 31-32 of `preprocess.py`: flatten the labels when they arrive
two-dimensional. -/
def flattenIf2 (y : NDArray) : NDArray :=
  if y.shape.length = 2 then ⟨[y.data.length], y.data⟩ else y

/-- Lines 34-38: apply the optional encoder to the processed labels. -/
def applyEnc (enc : Option Enc) (y : NDArray) : Option NDArray :=
  match enc with
  | none => some y
  | some e => e.applyArr y

/-- `Subset.__init__(X, y, feature_shape, encoder)`: reshape the
features to `(len(X), *feature_shape)`, flatten 2-d labels, apply the
encoder, and assert equal lengths.  Any numpy/sklearn exception and the
final assertion failure are `none`. -/
def mkSubset (X y : NDArray) (feature_shape : List Int) (enc : Option Enc) :
    Option Subset :=
  if X.shape = [] then none
  else
    (npReshape X ((X.len : Int) :: feature_shape)).bind fun X2 =>
      (applyEnc enc (flattenIf2 y)).bind fun y2 =>
        if y2.shape = [] then none
        else if X2.len = y2.len then some ⟨X2, y2⟩ else none

/-- `Subset.__len__`: `min(len(_X), len(_y))`. -/
def Subset.length (s : Subset) : Nat := min s._X.len s._y.len

/-- The mapping produced by `Subset.__dict__` and consumed by
`Subset.from_dict`; a missing key reads as Python `None` (`Option.none`
here), on which reconstruction raises. -/
structure SubsetDict where
  X : Option NDArray
  y : Option NDArray
deriving DecidableEq, Repr

/-- `Subset.__dict__()`: the mapping `{"X": _X, "y": _y}`. -/
def Subset.toDict (s : Subset) : SubsetDict := ⟨some s._X, some s._y⟩

/-- `Subset.from_dict(d)`: rebuild through `__init__` with the default
`feature_shape=(-1,)` and no encoder; `d.get` of a missing key yields
`None`, on which `__init__` raises. -/
def Subset.fromDict (d : SubsetDict) : Option Subset :=
  match d.X, d.y with
  | some X, some y => mkSubset X y [-1] none
  | _, _ => none

/-- The `size` argument of `Subset.sampled`: a Python int or float (every
float value is a rational, and `int()` of the nonnegative products in
play is the floor). -/
inductive PySize where
  | int (k : Int)
  | float (r : ℚ)
deriving DecidableEq, Repr

/-- Python `int()` on a rational value: truncation toward zero. -/
def pyInt (q : ℚ) : Int := if q < 0 then -⌊-q⌋ else ⌊q⌋

/-- Lines 69-73 of `preprocess.py`: the requested sample count —
`min(total, size)` for an int, `int(total * min(size, 1.0))` for a
float. -/
def sampleCount (total : Nat) : PySize → Int
  | .int k => min (total : Int) k
  | .float r => pyInt ((total : ℚ) * min r 1)

/-- `Subset.sampled(size)`.  The random draw of
`np.random.choice(np.arange(total), sample, replace=False)` is passed in
as `idx`, constrained to exactly what `choice` guarantees (and requires):
`sample` is in `[0, total]`, the draw has length `sample`, is duplicate
free, and lies below `total`.  When no such draw exists (`sample`
negative or above `total`) `choice` raises, i.e. every `idx` yields
`none`.  The selected rows are then rebuilt through `Subset.__init__`
with the default `feature_shape=(-1,)` and no encoder. -/
def Subset.sampled (s : Subset) (size : PySize) (idx : List Nat) :
    Option Subset :=
  if 0 ≤ sampleCount s.length size ∧
      idx.length = (sampleCount s.length size).toNat ∧ idx.Nodup ∧
      idx.all (fun i => i < s.length) then
    mkSubset (s._X.selectRows idx) (s._y.selectRows idx) [-1] none
  else none

/-- `Subset.__getitem__(item)`: asserts `0 <= item < len(self)` and
returns the pair `(X[item], y[item])` of axis-0 slices. -/
def Subset.getItem (s : Subset) (i : Int) : Option (NDArray × NDArray) :=
  if 0 ≤ i ∧ i < (s.length : Int) then
    some (s._X.rowArr i.toNat, s._y.rowArr i.toNat)
  else none

/-- The three raw groups obtained from the loaded `.mat` archive
(`dataset[0][0]` then `train[0][0]` / `test[0][0]`): training and testing
images, labels and writer ids, plus the class-index mapping table. -/
structure Archive where
  trainX : NDArray
  trainY : NDArray
  trainW : NDArray
  testX : NDArray
  testY : NDArray
  testW : NDArray
  mapping : NDArray
deriving DecidableEq, Repr

/-- A `Dataset` object as a bag of Python attributes.  The outer
`Option` on each field records whether the attribute has been assigned
at all (`none` = reading it raises `AttributeError`); for `_train`,
`_test`, `_mapping`, `_encoder` and `_decoder` the inner `Option` is the
stored value, which may itself be Python `None`. -/
structure Dataset where
  _train : Option (Option Subset)
  _sampled_train : Option Subset
  _train_size : Option Nat
  _test : Option (Option Subset)
  _sampled_test : Option Subset
  _test_size : Option Nat
  _mapping : Option (Option NDArray)
  _encoder : Option (Option Enc)
  _decoder : Option (Option Enc)
deriving DecidableEq, Repr

/-- `Dataset.__init__(filename, folder, label_order)` after the archive
has been parsed into `a`.  Returns the constructed object together with
the lines printed (the unrecognized-policy warning), or `none` when one
of the numpy/sklearn calls raises. -/
def labelPolicy (a : Archive) (label_order : Option String) :
    Option (Option Enc × Option Enc × List String) :=
  if label_order = some "shift" then
    (a.trainY.data.min?).bind fun m1 =>
      (a.testY.data.min?).bind fun m2 =>
        some (some (.shiftEnc (min m1 m2)), some (.shiftDec (min m1 m2)), [])
  else if label_order = some "reorder" then
    some (some (.labelEnc (LabelEncoder.fit a.trainY.data)),
          some (.labelEnc (LabelEncoder.fit a.trainY.data)), [])
  else
    match label_order with
    | none => some (none, none, [])
    | some s => some (none, none, ["unrecognized label order " ++ s])

def mkDataset (a : Archive) (label_order : Option String) :
    Option (Dataset × List String) :=
  (labelPolicy a label_order).bind fun p =>
    (mkSubset a.trainX a.trainY [-1] p.1).bind fun tr =>
      (mkSubset a.testX a.testY [-1] p.1).bind fun te =>
        some (⟨some (some tr), some tr, some tr.length,
               some (some te), some te, some te.length,
               some (some a.mapping), some p.1, some p.2.1⟩, p.2.2)

/-- `Dataset.sample_train(size)`: replaces the cached sampled view and
its recorded size, returning the (mutated) object; raises when `_train`
is unset, is `None`, or its `sampled` call raises. -/
def Dataset.sample_train (d : Dataset) (size : PySize) (idx : List Nat) :
    Option Dataset :=
  (d._train.bind id).bind fun t =>
    (t.sampled size idx).map fun st =>
      { d with _sampled_train := some st, _train_size := some st.length }

/-- `Dataset.sample_test(size)`: mirror image of `sample_train`. -/
def Dataset.sample_test (d : Dataset) (size : PySize) (idx : List Nat) :
    Option Dataset :=
  (d._test.bind id).bind fun t =>
    (t.sampled size idx).map fun st =>
      { d with _sampled_test := some st, _test_size := some st.length }

/-- Property `Dataset.train_size` (raises when the attribute is unset). -/
def Dataset.train_size (d : Dataset) : Option Nat := d._train_size

/-- Property `Dataset.test_size`. -/
def Dataset.test_size (d : Dataset) : Option Nat := d._test_size

/-- Property `Dataset.encoder`. -/
def Dataset.encoder (d : Dataset) : Option (Option Enc) := d._encoder

/-- Property `Dataset.decoder`. -/
def Dataset.decoder (d : Dataset) : Option (Option Enc) := d._decoder

/-- Property `Dataset.train` (the current sampled view). -/
def Dataset.train (d : Dataset) : Option Subset := d._sampled_train

/-- Property `Dataset.test` (the current sampled view). -/
def Dataset.test (d : Dataset) : Option Subset := d._sampled_test

/-- Property `Dataset.mapping`. -/
def Dataset.mappingTable (d : Dataset) : Option (Option NDArray) := d._mapping

/-- The mapping consumed by `Dataset.from_dict`; `d.get` of a missing key
reads as Python `None`. -/
structure DatasetDict where
  train : Option Subset
  test : Option Subset
  mapping : Option NDArray
deriving DecidableEq, Repr

/-- `Dataset.from_dict(d)`: allocates a blank instance and assigns only
`_train`, `_test` and `_mapping`; every other attribute stays unset. -/
def Dataset.fromDict (d : DatasetDict) : Dataset :=
  ⟨some d.train, none, none, some d.test, none, none, some d.mapping,
   none, none⟩

/-- The shape bookkeeping every `Subset` built by the program from a
1-d or 2-d label array satisfies: the feature array is well formed with
at least one axis, the label array is 1-d and well formed, and the two
agree in length (the constructor's assertion). -/
abbrev Subset.WF (s : Subset) : Prop :=
  s._X.shape.prod = s._X.data.length ∧
  s._X.shape = s._X.len :: s._X.shape.tail ∧
  s._y.shape = [s._y.data.length] ∧
  s._X.len = s._y.len

/-! Concrete instances used to witness the theorems below. -/

/-- A small parsed archive: two training samples (4 features each,
labels 3 and 5, stored as a 2×1 column as in the EMNIST file), one
testing sample with label 5, and a 3×2 mapping table. -/
def A1 : Archive :=
  ⟨⟨[2, 4], [1, 2, 3, 4, 5, 6, 7, 8]⟩, ⟨[2, 1], [3, 5]⟩, ⟨[2, 1], [0, 0]⟩,
   ⟨[1, 4], [9, 9, 9, 9]⟩, ⟨[1, 1], [5]⟩, ⟨[1, 1], [0]⟩,
   ⟨[3, 2], [0, 1, 2, 3, 4, 5]⟩⟩

/-- The training `Subset` of `A1` under the `"reorder"` policy. -/
def T1r : Subset := ⟨⟨[2, 4], [1, 2, 3, 4, 5, 6, 7, 8]⟩, ⟨[2], [0, 1]⟩⟩

/-- `Dataset(A1, label_order="reorder")`. -/
def D1r : Dataset :=
  ⟨some (some T1r), some T1r, some 2,
   some (some ⟨⟨[1, 4], [9, 9, 9, 9]⟩, ⟨[1], [1]⟩⟩),
   some ⟨⟨[1, 4], [9, 9, 9, 9]⟩, ⟨[1], [1]⟩⟩, some 1,
   some (some ⟨[3, 2], [0, 1, 2, 3, 4, 5]⟩),
   some (some (.labelEnc [3, 5])), some (some (.labelEnc [3, 5]))⟩

/-- The training `Subset` of `A1` under the `"shift"` policy. -/
def T1s : Subset := ⟨⟨[2, 4], [1, 2, 3, 4, 5, 6, 7, 8]⟩, ⟨[2], [0, 2]⟩⟩

/-- `Dataset(A1, label_order="shift")`. -/
def D1s : Dataset :=
  ⟨some (some T1s), some T1s, some 2,
   some (some ⟨⟨[1, 4], [9, 9, 9, 9]⟩, ⟨[1], [2]⟩⟩),
   some ⟨⟨[1, 4], [9, 9, 9, 9]⟩, ⟨[1], [2]⟩⟩, some 1,
   some (some ⟨[3, 2], [0, 1, 2, 3, 4, 5]⟩),
   some (some (.shiftEnc 3)), some (some (.shiftDec 3))⟩

/-- The training `Subset` of `A1` with identity label handling. -/
def T1n : Subset := ⟨⟨[2, 4], [1, 2, 3, 4, 5, 6, 7, 8]⟩, ⟨[2], [3, 5]⟩⟩

/-- `Dataset(A1, label_order="bogus")` (also the shape of the
`label_order=None` result). -/
def D1n : Dataset :=
  ⟨some (some T1n), some T1n, some 2,
   some (some ⟨⟨[1, 4], [9, 9, 9, 9]⟩, ⟨[1], [5]⟩⟩),
   some ⟨⟨[1, 4], [9, 9, 9, 9]⟩, ⟨[1], [5]⟩⟩, some 1,
   some (some ⟨[3, 2], [0, 1, 2, 3, 4, 5]⟩),
   some none, some none⟩

/-- `D1n` after `sample_train(1)` drew the index 0. -/
def D1n' : Dataset :=
  { D1n with
      _sampled_train := some ⟨⟨[1, 4], [1, 2, 3, 4]⟩, ⟨[1], [3]⟩⟩,
      _train_size := some 1 }

/-- `D1n` after `sample_test(1)` drew the index 0. -/
def D1n'' : Dataset :=
  { D1n with
      _sampled_test := some ⟨⟨[1, 4], [9, 9, 9, 9]⟩, ⟨[1], [5]⟩⟩,
      _test_size := some 1 }

/-- A five-sample `Subset` with two features per sample. -/
def S5 : Subset :=
  ⟨⟨[5, 2], [1, 2, 3, 4, 5, 6, 7, 8, 9, 10]⟩, ⟨[5], [1, 2, 3, 4, 5]⟩⟩

/-- A one-sample `Subset` stored with `feature_shape=(2, 2)`, so its
feature array is 3-dimensional. -/
def S22 : Subset := ⟨⟨[1, 2, 2], [1, 2, 3, 4]⟩, ⟨[1], [7]⟩⟩

/-- What `Subset.from_dict(S22.__dict__())` actually rebuilds: the same
data reshaped to `(1, 4)` by the default `feature_shape=(-1,)`. -/
def S14 : Subset := ⟨⟨[1, 4], [1, 2, 3, 4]⟩, ⟨[1], [7]⟩⟩

/-- `S5.sampled(2)` when the random draw picked rows 3 and 1. -/
def S5s : Subset := ⟨⟨[2, 2], [7, 8, 3, 4]⟩, ⟨[2], [4, 2]⟩⟩

/-! Helper lemmas about the numpy fragments of the model. -/

theorem prod_map_resolve (tgt : List Int) (c : Nat) :
    (tgt.map fun d => if d = -1 then c else d.toNat).prod =
      c ^ (tgt.count (-1)) * knownProd tgt := by
  induction tgt with
  | nil => simp [knownProd]
  | cons d rest ih =>
    by_cases hd : d = -1
    · subst hd
      simp [knownProd, List.count_cons, List.filter_cons, pow_succ] at ih ⊢
      rw [ih]; ring
    · simp [knownProd, List.count_cons, List.filter_cons, hd] at ih ⊢
      rw [ih]; ring

theorem resolveShape_prod (total : Nat) (tgt : List Int) (sh : List Nat)
    (h : resolveShape total tgt = some sh) : sh.prod = total := by
  unfold resolveShape at h
  split at h
  · exact absurd h (by simp)
  split at h
  · split at h
    · cases h; assumption
    · exact absurd h (by simp)
  split at h
  · split at h
    · cases h
      rename_i hc0 hc1 hp
      rw [prod_map_resolve, hc1, pow_one]
      exact Nat.div_mul_cancel (Nat.dvd_of_mod_eq_zero hp.2)
    · exact absurd h (by simp)
  · exact absurd h (by simp)

theorem resolveShape_cons_natCast (total : Nat) (n : Nat) (fs : List Int)
    (sh : List Nat) (h : resolveShape total ((n : Int) :: fs) = some sh) :
    ∃ t, sh = n :: t := by
  have hn1 : ¬((n : Int) = -1) := by omega
  unfold resolveShape at h
  split at h
  · exact absurd h (by simp)
  split at h
  · split at h
    · cases h
      exact ⟨fs.map Int.toNat, by simp⟩
    · exact absurd h (by simp)
  split at h
  · split at h
    · cases h
      refine ⟨List.map
        (fun d => if d = -1 then total / knownProd ((n : Int) :: fs) else d.toNat)
        fs, ?_⟩
      rw [List.map_cons, if_neg hn1, Int.toNat_natCast]
    · exact absurd h (by simp)
  · exact absurd h (by simp)

theorem npReshape_some (a : NDArray) (tgt : List Int) (b : NDArray)
    (h : npReshape a tgt = some b) :
    b.data = a.data ∧ b.shape.prod = a.data.length ∧
      resolveShape a.data.length tgt = some b.shape := by
  unfold npReshape at h
  cases hr : resolveShape a.data.length tgt with
  | none => rw [hr] at h; simp at h
  | some sh =>
    rw [hr] at h
    simp only [Option.map_some'] at h
    cases h
    refine ⟨rfl, resolveShape_prod _ _ _ hr, ?_⟩
    rfl

theorem row_length (a : NDArray) (h0 : Nat) (t : List Nat) (i : Nat)
    (hsh : a.shape = h0 :: t) (hwf : a.shape.prod = a.data.length) (hi : i < h0) :
    (a.row i).length = a.rowSize := by
  have hrs : a.rowSize = t.prod := by simp [NDArray.rowSize, hsh]
  have hdl : a.data.length = h0 * t.prod := by
    rw [← hwf, hsh, List.prod_cons]
  have hle : i * t.prod + t.prod ≤ h0 * t.prod := by
    rw [← Nat.succ_mul]
    exact Nat.mul_le_mul_right _ hi
  simp only [NDArray.row, List.length_take, List.length_drop, hrs, hdl]
  omega

theorem flatten_blocks_length (L : List (List Int)) (rs : Nat)
    (hL : ∀ b ∈ L, b.length = rs) : L.flatten.length = L.length * rs := by
  rw [List.length_flatten, List.map_congr_left hL]
  simp [List.sum_replicate, Nat.smul_one_eq_cast]

theorem flatten_blocks_get (L : List (List Int)) (rs : Nat)
    (hL : ∀ b ∈ L, b.length = rs) (j : Nat) (hj : j < L.length) :
    (L.flatten.drop (j * rs)).take rs = L.get ⟨j, hj⟩ := by
  induction L generalizing j with
  | nil => simp at hj
  | cons b bs ih =>
    have hb : b.length = rs := hL b (by simp)
    cases j with
    | zero =>
      simp only [Nat.zero_mul, List.drop_zero, List.flatten_cons]
      rw [← hb, List.take_left]
      rfl
    | succ j =>
      have hmul : (j + 1) * rs = b.length + j * rs := by rw [hb]; ring
      simp only [List.flatten_cons, hmul, List.drop_append]
      exact ih (fun c hc => hL c (by simp [hc])) j (by simpa using hj)

theorem row_of_block_array (m rs : Nat) (L : List (List Int)) (j : Nat)
    (hL : ∀ b ∈ L, b.length = rs) (hj : j < L.length) :
    NDArray.row ⟨[m, rs], L.flatten⟩ j = L.get ⟨j, hj⟩ := by
  unfold NDArray.row NDArray.rowSize
  simp only [List.tail_cons, List.prod_cons, List.prod_nil, Nat.mul_one]
  exact flatten_blocks_get L rs hL j hj

theorem take_one_drop (l : List Int) (i : Nat) (hi : i < l.length) :
    (l.drop i).take 1 = [l.getD i 0] := by
  rw [List.drop_eq_getElem_cons hi, List.getD_eq_getElem l 0 hi]
  rfl

theorem flatten_singletons (idx : List Nat) (g : Nat → Int) :
    (idx.map fun i => [g i]).flatten = idx.map g := by
  induction idx with
  | nil => rfl
  | cons i rest ih => simp [ih]

theorem resolveShape_infer (total m : Nat) (hm : m ≠ 0) (hdvd : total % m = 0) :
    resolveShape total [(m : Int), -1] = some [m, total / m] := by
  have h1 : ¬((m : Int) < -1) := by omega
  have h2 : ¬((m : Int) = -1) := by omega
  have hkp : knownProd [(m : Int), -1] = m := by
    simp [knownProd, List.filter_cons, h2]
  unfold resolveShape
  rw [if_neg (by simp [h1]), if_neg (by simp [List.count_cons, h2]),
    if_pos (by simp [List.count_cons, h2]), if_pos (by rw [hkp]; exact ⟨hm, hdvd⟩)]
  rw [hkp]
  simp [h2]

theorem applyArr_shape (e : Enc) (y z : NDArray) (h : e.applyArr y = some z) :
    z.shape = y.shape ∧ z.data.length = y.data.length := by
  cases e with
  | shiftEnc lb =>
    simp only [Enc.applyArr] at h
    rw [← Option.some.inj h]
    exact ⟨rfl, by simp⟩
  | shiftDec lb =>
    simp only [Enc.applyArr] at h
    rw [← Option.some.inj h]
    exact ⟨rfl, by simp⟩
  | labelEnc cs =>
    simp only [Enc.applyArr] at h
    split at h
    · rw [← Option.some.inj h]
      exact ⟨rfl, by simp⟩
    · exact absurd h (by simp)

theorem flattenIf2_facts (y : NDArray) :
    (flattenIf2 y).data = y.data ∧ (flattenIf2 y).shape.length ≠ 2 := by
  unfold flattenIf2
  split
  · exact ⟨rfl, by simp⟩
  · rename_i hn
    exact ⟨rfl, hn⟩

/-- Inversion of a successful `Subset.__init__`. -/
theorem mkSubset_some (X y : NDArray) (fs : List Int) (enc : Option Enc)
    (s : Subset) (h : mkSubset X y fs enc = some s) :
    X.shape ≠ [] ∧
    npReshape X ((X.len : Int) :: fs) = some s._X ∧
    applyEnc enc (flattenIf2 y) = some s._y ∧
    s._y.shape ≠ [] ∧ s._X.len = s._y.len := by
  unfold mkSubset at h
  split at h
  · exact absurd h (by simp)
  rename_i hX
  rw [Option.bind_eq_some] at h
  obtain ⟨X2, hr, h⟩ := h
  rw [Option.bind_eq_some] at h
  obtain ⟨y2, he, h⟩ := h
  split at h
  · exact absurd h (by simp)
  rename_i hy0
  split at h
  · rename_i hlen
    rw [← Option.some.inj h]
    exact ⟨hX, hr, he, hy0, hlen⟩
  · exact absurd h (by simp)

/-- The reshaped feature array of a constructed `Subset` is well formed
and headed by its length. -/
theorem mkSubset_some_X (X y : NDArray) (fs : List Int) (enc : Option Enc)
    (s : Subset) (h : mkSubset X y fs enc = some s) :
    s._X.shape = s._X.len :: s._X.shape.tail ∧
    s._X.shape.prod = s._X.data.length ∧ s._X.data = X.data ∧ s._X.len = X.len := by
  obtain ⟨-, hr, -, -, -⟩ := mkSubset_some X y fs enc s h
  obtain ⟨hdata, hprod, hres⟩ := npReshape_some X _ s._X hr
  obtain ⟨t, ht⟩ := resolveShape_cons_natCast _ _ _ _ hres
  have hlen : s._X.len = X.len := by simp [NDArray.len, ht]
  refine ⟨?_, by rw [hprod, hdata], hdata, hlen⟩
  rw [ht]
  simp [NDArray.len, ht]

/-- The processed label array of a constructed `Subset` is never
2-dimensional (it was flattened), and with no encoder its data is the
raw label data. -/
theorem mkSubset_some_y (X y : NDArray) (fs : List Int) (enc : Option Enc)
    (s : Subset) (h : mkSubset X y fs enc = some s) :
    s._y.shape.length ≠ 2 ∧ (enc = none → s._y.data = y.data) := by
  obtain ⟨-, -, he, -, -⟩ := mkSubset_some X y fs enc s h
  obtain ⟨hfd, hf2⟩ := flattenIf2_facts y
  constructor
  · cases enc with
    | none =>
      simp only [applyEnc] at he
      rw [← Option.some.inj he]
      exact hf2
    | some e =>
      simp only [applyEnc] at he
      rw [(applyArr_shape e _ _ he).1]
      exact hf2
  · intro henc
    subst henc
    simp only [applyEnc] at he
    rw [← Option.some.inj he]
    exact hfd

/-- Evaluating `Subset.sampled` on a well-formed subset and a valid
nonempty draw: the result is the selected feature rows reshaped to 2-d
together with the selected label values. -/
theorem sampled_eq (s : Subset) (size : PySize) (idx : List Nat)
    (hwf : s.WF)
    (hlen : (idx.length : Int) = sampleCount s.length size)
    (hnd : idx.Nodup) (hb : ∀ i ∈ idx, i < s.length)
    (hpos : 1 ≤ idx.length) :
    s.sampled size idx =
      some ⟨⟨[idx.length, s._X.rowSize], (idx.map s._X.row).flatten⟩,
            ⟨[idx.length], idx.map fun i => s._y.data.getD i 0⟩⟩ := by
  obtain ⟨hxp, hxh, hyd, hxy⟩ := hwf
  have hm0 : idx.length ≠ 0 := by omega
  have hbX : ∀ i ∈ idx, i < s._X.len := fun i hi =>
    lt_of_lt_of_le (hb i hi) (Nat.min_le_left _ _)
  have hbY : ∀ i ∈ idx, i < s._y.data.length := by
    intro i hi
    have h1 : i < s._y.len := lt_of_lt_of_le (hb i hi) (Nat.min_le_right _ _)
    rw [NDArray.len, hyd] at h1
    exact h1
  have hrows : ∀ b ∈ idx.map s._X.row, b.length = s._X.rowSize := by
    intro b hbm
    obtain ⟨i, hi, rfl⟩ := List.mem_map.1 hbm
    exact row_length s._X s._X.len s._X.shape.tail i hxh hxp (hbX i hi)
  have hflatlen : (idx.map s._X.row).flatten.length =
      idx.length * s._X.rowSize := by
    rw [flatten_blocks_length _ _ hrows, List.length_map]
  have hytail : s._y.shape.tail = [] := by rw [hyd]; rfl
  have hyrows : idx.map s._y.row = idx.map fun i => [s._y.data.getD i 0] := by
    refine List.map_congr_left fun i hi => ?_
    have hrs1 : s._y.rowSize = 1 := by rw [NDArray.rowSize, hytail]; rfl
    rw [NDArray.row, hrs1, Nat.mul_one]
    exact take_one_drop _ _ (hbY i hi)
  unfold Subset.sampled
  rw [if_pos ?hcond]
  case hcond =>
    refine ⟨by omega, by omega, hnd, ?_⟩
    simp only [List.all_eq_true, decide_eq_true_eq]
    exact hb
  unfold NDArray.selectRows
  rw [hyrows, flatten_singletons, hytail]
  have hres : npReshape
      ⟨idx.length :: s._X.shape.tail, (idx.map s._X.row).flatten⟩
      (((⟨idx.length :: s._X.shape.tail,
          (idx.map s._X.row).flatten⟩ : NDArray).len : Int) :: [-1]) =
      some ⟨[idx.length, s._X.rowSize], (idx.map s._X.row).flatten⟩ := by
    show (resolveShape (idx.map s._X.row).flatten.length
      [(idx.length : Int), -1]).map _ = _
    rw [hflatlen, resolveShape_infer _ _ hm0 (Nat.mul_mod_right _ _),
      Nat.mul_div_cancel_left _ (Nat.pos_of_ne_zero hm0)]
    rfl
  unfold mkSubset
  rw [if_neg (by simp), hres, Option.some_bind]
  have hflat2 : flattenIf2 ⟨[idx.length],
      idx.map fun i => s._y.data.getD i 0⟩ =
      ⟨[idx.length], idx.map fun i => s._y.data.getD i 0⟩ := by
    unfold flattenIf2
    rw [if_neg (by simp)]
  show (applyEnc none (flattenIf2 ⟨[idx.length],
      idx.map fun i => s._y.data.getD i 0⟩)).bind _ = _
  rw [hflat2]
  show (some (⟨[idx.length], idx.map fun i => s._y.data.getD i 0⟩ :
      NDArray)).bind _ = _
  rw [Option.some_bind, if_neg (by simp)]
  exact if_pos rfl

/-- Inversion of a successful `Subset.sampled` call on a well-formed
subset: the draw was valid and nonempty, its length met the requested
sample count, and the result is the explicit row selection. -/
theorem sampled_some (s : Subset) (size : PySize) (idx : List Nat)
    (s' : Subset) (hwf : s.WF) (h : s.sampled size idx = some s') :
    idx.Nodup ∧ (∀ i ∈ idx, i < s.length) ∧ 1 ≤ idx.length ∧
    (idx.length : Int) = sampleCount s.length size ∧
    s' = ⟨⟨[idx.length, s._X.rowSize], (idx.map s._X.row).flatten⟩,
          ⟨[idx.length], idx.map fun i => s._y.data.getD i 0⟩⟩ := by
  have hcond : 0 ≤ sampleCount s.length size ∧
      idx.length = (sampleCount s.length size).toNat ∧ idx.Nodup ∧
      (idx.all fun i => decide (i < s.length)) = true := by
    by_contra hc
    unfold Subset.sampled at h
    rw [if_neg hc] at h
    exact absurd h (by simp)
  obtain ⟨h0, hlen, hnd, hall⟩ := hcond
  have hb : ∀ i ∈ idx, i < s.length := by
    intro i hi
    exact of_decide_eq_true (List.all_eq_true.1 hall i hi)
  have hleni : (idx.length : Int) = sampleCount s.length size := by omega
  have hpos : 1 ≤ idx.length := by
    by_contra hn
    have hnil : idx = [] := List.eq_nil_of_length_eq_zero (by omega)
    subst hnil
    unfold Subset.sampled at h
    rw [if_pos ⟨h0, hlen, hnd, hall⟩] at h
    have hnone : mkSubset (s._X.selectRows []) (s._y.selectRows [])
        [-1] none = none := rfl
    rw [hnone] at h
    exact absurd h (by simp)
  refine ⟨hnd, hb, hpos, hleni, ?_⟩
  have heval := sampled_eq s size idx hwf hleni hnd hb hpos
  rw [heval] at h
  exact (Option.some.inj h).symm

/-- Inversion of a successful `Dataset.__init__`. -/
theorem mkDataset_some (a : Archive) (lo : Option String) (d : Dataset)
    (logs : List String) (h : mkDataset a lo = some (d, logs)) :
    ∃ p tr te, labelPolicy a lo = some p ∧
      mkSubset a.trainX a.trainY [-1] p.1 = some tr ∧
      mkSubset a.testX a.testY [-1] p.1 = some te ∧
      d = ⟨some (some tr), some tr, some tr.length, some (some te), some te,
           some te.length, some (some a.mapping), some p.1, some p.2.1⟩ ∧
      logs = p.2.2 := by
  unfold mkDataset at h
  rw [Option.bind_eq_some] at h
  obtain ⟨p, hp, h⟩ := h
  rw [Option.bind_eq_some] at h
  obtain ⟨tr, htr, h⟩ := h
  rw [Option.bind_eq_some] at h
  obtain ⟨te, hte, h⟩ := h
  have hpair := Option.some.inj h
  exact ⟨p, tr, te, hp, htr, hte, (congrArg Prod.fst hpair).symm,
    (congrArg Prod.snd hpair).symm⟩

theorem labelPolicy_shift (a : Archive)
    (p : Option Enc × Option Enc × List String)
    (h : labelPolicy a (some "shift") = some p) :
    ∃ m1 m2, a.trainY.data.min? = some m1 ∧ a.testY.data.min? = some m2 ∧
      p = (some (.shiftEnc (min m1 m2)), some (.shiftDec (min m1 m2)), []) := by
  unfold labelPolicy at h
  rw [if_pos rfl] at h
  rw [Option.bind_eq_some] at h
  obtain ⟨m1, h1, h⟩ := h
  rw [Option.bind_eq_some] at h
  obtain ⟨m2, h2, h⟩ := h
  exact ⟨m1, m2, h1, h2, (Option.some.inj h).symm⟩

theorem labelPolicy_reorder (a : Archive)
    (p : Option Enc × Option Enc × List String)
    (h : labelPolicy a (some "reorder") = some p) :
    p = (some (.labelEnc (LabelEncoder.fit a.trainY.data)),
         some (.labelEnc (LabelEncoder.fit a.trainY.data)), []) := by
  unfold labelPolicy at h
  rw [if_neg (by simp), if_pos rfl] at h
  exact (Option.some.inj h).symm

theorem labelPolicy_other (a : Archive) (lo : Option String)
    (h1 : lo ≠ some "shift") (h2 : lo ≠ some "reorder") :
    labelPolicy a lo = some (none, none,
      match lo with
      | none => []
      | some s => ["unrecognized label order " ++ s]) := by
  unfold labelPolicy
  rw [if_neg h1, if_neg h2]
  cases lo with
  | none => rfl
  | some s => rfl

/-- A fitted `LabelEncoder` undoes itself on every label it was fitted
on: `transform` then `inverse_transform` is the identity there. -/
theorem labelEnc_roundtrip (cs : List Int) (l : Int) (hmem : l ∈ cs) :
    ∃ c : Int, Enc.encode1 (.labelEnc cs) l = some c ∧
      Enc.decode1 (.labelEnc cs) c = some l := by
  have hidx : cs.indexOf l < cs.length := List.indexOf_lt_length.2 hmem
  refine ⟨(cs.indexOf l : Int), by simp [Enc.encode1, hmem], ?_⟩
  simp only [Enc.decode1]
  rw [if_pos ⟨Int.natCast_nonneg _, by rw [Int.toNat_natCast]; exact hidx⟩,
    Int.toNat_natCast, List.getD_eq_getElem cs 0 hidx,
    List.getElem_indexOf hidx]

/-- `np.unique` keeps exactly the values of its input. -/
theorem mem_npUnique (l : List Int) (a : Int) : a ∈ npUnique l ↔ a ∈ l := by
  unfold npUnique
  rw [List.mem_insertionSort, List.mem_dedup]

/-- C1: when a `Dataset` is constructed with the `"reorder"` label-order
policy, the encoder and decoder it exposes are one and the same fitted
`LabelEncoder`, and decoding after encoding is the identity on every
label value occurring in the raw training labels. -/
theorem claim_C1 (a : Archive) (d : Dataset) (logs : List String)
    (h : mkDataset a (some "reorder") = some (d, logs)) :
    ∃ e : Enc, d.encoder = some (some e) ∧ d.decoder = some (some e) ∧
      ∀ l ∈ a.trainY.data, ∃ c : Int, e.encode1 l = some c ∧
        e.decode1 c = some l := by
  obtain ⟨p, tr, te, hp, htr, hte, hd, hl⟩ := mkDataset_some _ _ _ _ h
  have hpv := labelPolicy_reorder a p hp
  subst hpv
  subst hd
  refine ⟨.labelEnc (LabelEncoder.fit a.trainY.data), rfl, rfl, ?_⟩
  intro l hml
  exact labelEnc_roundtrip _ l ((mem_npUnique _ _).2 hml)

/-- C3: when a `Dataset` is constructed with the `"shift"` policy, the
encoder subtracts the global minimum over training and testing labels,
the decoder adds the same constant back, and decoding after encoding is
the identity on every label observed in either split. -/
theorem claim_C3 (a : Archive) (d : Dataset) (logs : List String)
    (h : mkDataset a (some "shift") = some (d, logs)) :
    ∃ m1 m2 : Int, a.trainY.data.min? = some m1 ∧
      a.testY.data.min? = some m2 ∧
      d.encoder = some (some (.shiftEnc (min m1 m2))) ∧
      d.decoder = some (some (.shiftDec (min m1 m2))) ∧
      ∀ l : Int, l ∈ a.trainY.data ∨ l ∈ a.testY.data →
        (Enc.encode1 (.shiftEnc (min m1 m2)) l).bind
          (Enc.decode1 (.shiftDec (min m1 m2))) = some l := by
  obtain ⟨p, tr, te, hp, htr, hte, hd, hl⟩ := mkDataset_some _ _ _ _ h
  obtain ⟨m1, m2, h1, h2, hpv⟩ := labelPolicy_shift a p hp
  subst hpv
  subst hd
  refine ⟨m1, m2, h1, h2, rfl, rfl, ?_⟩
  intro l _
  simp only [Enc.encode1, Enc.decode1, Option.some_bind, Option.some.injEq]
  omega

/-- C8: a `Dataset` built with an unrecognized (or absent) label-order
policy fails only when one of the two `Subset`s cannot be built; it logs
the warning exactly when the policy is present, stores `None` for both
encoder and decoder, and keeps the raw label values in both splits. -/
theorem claim_C8 (a : Archive) (lo : Option String)
    (h1 : lo ≠ some "shift") (h2 : lo ≠ some "reorder") :
    ((mkDataset a lo).isSome ↔
      ((mkSubset a.trainX a.trainY [-1] none).isSome ∧
       (mkSubset a.testX a.testY [-1] none).isSome)) ∧
    ∀ d logs, mkDataset a lo = some (d, logs) →
      logs = (match lo with
              | none => []
              | some s => ["unrecognized label order " ++ s]) ∧
      d.encoder = some none ∧ d.decoder = some none ∧
      (∃ tr, d._train = some (some tr) ∧ tr._y.data = a.trainY.data ∧
        d._sampled_train = some tr) ∧
      (∃ te, d._test = some (some te) ∧ te._y.data = a.testY.data ∧
        d._sampled_test = some te) := by
  have hpol := labelPolicy_other a lo h1 h2
  constructor
  · unfold mkDataset
    rw [hpol]
    cases htr : mkSubset a.trainX a.trainY [-1] none with
    | none => simp [htr]
    | some tr =>
      cases hte : mkSubset a.testX a.testY [-1] none with
      | none => simp [htr, hte]
      | some te => simp [htr, hte]
  · intro d logs h
    obtain ⟨p, tr, te, hp, htr, hte, hd, hl⟩ := mkDataset_some _ _ _ _ h
    rw [hpol] at hp
    have hpv := (Option.some.inj hp).symm
    subst hpv
    subst hd
    exact ⟨hl, rfl, rfl,
      ⟨tr, rfl, (mkSubset_some_y _ _ _ _ _ htr).2 rfl, rfl⟩,
      ⟨te, rfl, (mkSubset_some_y _ _ _ _ _ hte).2 rfl, rfl⟩⟩

/-- C6: constructing a `Subset` from reshapable features and a 1-d label
vector of the same length `n` succeeds with final length `n`; whenever
the reshaped features and the processed labels disagree in length, the
constructor's assertion fails and no object is produced. -/
theorem claim_C6 (X y : NDArray) (fs : List Int) (n : Nat) :
    (X.shape ≠ [] → X.len = n → y.shape = [n] →
      ∀ X2, npReshape X ((n : Int) :: fs) = some X2 →
        ∃ s, mkSubset X y fs none = some s ∧ s.length = n) ∧
    (∀ enc X2 y2, npReshape X ((X.len : Int) :: fs) = some X2 →
      applyEnc enc (flattenIf2 y) = some y2 → X2.len ≠ y2.len →
      mkSubset X y fs enc = none) := by
  constructor
  · intro hXne hXlen hysh X2 hr
    have hX2 : X2.len = n := by
      obtain ⟨-, -, hres⟩ := npReshape_some _ _ _ hr
      obtain ⟨t, ht⟩ := resolveShape_cons_natCast _ _ _ _ hres
      rw [NDArray.len, ht]
      rfl
    have hyflat : flattenIf2 y = y := by
      unfold flattenIf2
      rw [if_neg (by rw [hysh]; simp)]
    have hylen : y.len = n := by
      rw [NDArray.len, hysh]
      rfl
    refine ⟨⟨X2, y⟩, ?_, ?_⟩
    · unfold mkSubset
      rw [if_neg hXne, hXlen, hr, Option.some_bind, hyflat]
      show (some y).bind _ = _
      rw [Option.some_bind, if_neg (by rw [hysh]; simp),
        if_pos (by rw [hX2, hylen])]
    · show min X2.len y.len = n
      rw [hX2, hylen, Nat.min_self]
  · intro enc X2 y2 hr he hne
    unfold mkSubset
    split
    · rfl
    rw [hr, Option.some_bind, he, Option.some_bind]
    by_cases hy0 : y2.shape = []
    · rw [if_pos hy0]
    · rw [if_neg hy0, if_neg hne]

/-- C9: indexed access on a `Subset` returns the feature row and label
slice at `i` exactly when `0 ≤ i < len(self)`, and fails (an
`AssertionError` on the index bound) for every other `i`; the `Subset`
itself is left untouched (`__getitem__` reads but never writes). -/
theorem claim_C9 (s : Subset) (i : Int) :
    (0 ≤ i → i < (s.length : Int) →
      s.getItem i = some (s._X.rowArr i.toNat, s._y.rowArr i.toNat)) ∧
    (i < 0 ∨ (s.length : Int) ≤ i → s.getItem i = none) := by
  constructor
  · intro hl hu
    unfold Subset.getItem
    rw [if_pos ⟨hl, hu⟩]
  · intro h
    unfold Subset.getItem
    rw [if_neg (by omega)]

/-- C10: `Dataset.from_dict` populates only `_train`, `_test` and
`_mapping`; reading any of the properties `train`, `test`, `train_size`,
`test_size`, `encoder` or `decoder` on the reconstructed instance hits
an unset attribute and fails. -/
theorem claim_C10 (d : DatasetDict) :
    (Dataset.fromDict d).train = none ∧ (Dataset.fromDict d).test = none ∧
    (Dataset.fromDict d).train_size = none ∧
    (Dataset.fromDict d).test_size = none ∧
    (Dataset.fromDict d).encoder = none ∧
    (Dataset.fromDict d).decoder = none ∧
    (Dataset.fromDict d)._train = some d.train ∧
    (Dataset.fromDict d)._test = some d.test ∧
    (Dataset.fromDict d)._mapping = some d.mapping :=
  ⟨rfl, rfl, rfl, rfl, rfl, rfl, rfl, rfl, rfl⟩

/-- C7: `sample_train` replaces only the cached sampled-train view (with
`full_train.sampled(size)`) and the recorded train size (with that
view's length), returning the updated object; every other attribute —
the testing side, both full splits, the mapping and the encoder/decoder
pair — is unchanged.  Symmetrically for `sample_test`. -/
theorem claim_C7 (d : Dataset) (size : PySize) (idx : List Nat) :
    (∀ d', d.sample_train size idx = some d' →
      (∃ t st, d._train = some (some t) ∧ t.sampled size idx = some st ∧
        d'._sampled_train = some st ∧ d'._train_size = some st.length) ∧
      d'._train = d._train ∧ d'._test = d._test ∧
      d'._sampled_test = d._sampled_test ∧ d'._test_size = d._test_size ∧
      d'._mapping = d._mapping ∧ d'._encoder = d._encoder ∧
      d'._decoder = d._decoder) ∧
    (∀ d', d.sample_test size idx = some d' →
      (∃ t st, d._test = some (some t) ∧ t.sampled size idx = some st ∧
        d'._sampled_test = some st ∧ d'._test_size = some st.length) ∧
      d'._test = d._test ∧ d'._train = d._train ∧
      d'._sampled_train = d._sampled_train ∧
      d'._train_size = d._train_size ∧ d'._mapping = d._mapping ∧
      d'._encoder = d._encoder ∧ d'._decoder = d._decoder) := by
  constructor
  · intro d' h
    unfold Dataset.sample_train at h
    rw [Option.bind_eq_some] at h
    obtain ⟨t, ht, h⟩ := h
    obtain ⟨st, hst, hd'⟩ := Option.map_eq_some'.1 h
    have htr : d._train = some (some t) := by
      cases ho : d._train with
      | none => rw [ho] at ht; simp at ht
      | some o =>
        cases o with
        | none => rw [ho] at ht; simp at ht
        | some t0 =>
          rw [ho] at ht
          simp only [Option.some_bind, id, Option.some.injEq] at ht
          rw [ht]
    subst hd'
    exact ⟨⟨t, st, htr, hst, rfl, rfl⟩, rfl, rfl, rfl, rfl, rfl, rfl, rfl⟩
  · intro d' h
    unfold Dataset.sample_test at h
    rw [Option.bind_eq_some] at h
    obtain ⟨t, ht, h⟩ := h
    obtain ⟨st, hst, hd'⟩ := Option.map_eq_some'.1 h
    have hte : d._test = some (some t) := by
      cases ho : d._test with
      | none => rw [ho] at ht; simp at ht
      | some o =>
        cases o with
        | none => rw [ho] at ht; simp at ht
        | some t0 =>
          rw [ho] at ht
          simp only [Option.some_bind, id, Option.some.injEq] at ht
          rw [ht]
    subst hd'
    exact ⟨⟨t, st, hte, hst, rfl, rfl⟩, rfl, rfl, rfl, rfl, rfl, rfl, rfl⟩

/-- C2 counterexample: a `Subset` stored with `feature_shape=(2, 2)` does
not round-trip through `__dict__`/`from_dict` with its array shape
intact — `from_dict` rebuilds with the default `feature_shape=(-1,)`, so
the `(1, 2, 2)` feature array comes back as `(1, 4)` (values intact). -/
theorem claim_C2_counterexample :
    mkSubset ⟨[1, 4], [1, 2, 3, 4]⟩ ⟨[1], [7]⟩ [2, 2] none = some S22 ∧
    Subset.fromDict S22.toDict = some S14 ∧
    S14._X.data = S22._X.data ∧ S14._y = S22._y ∧
    S14._X.shape ≠ S22._X.shape :=
  ⟨by decide, by decide, by decide, by decide, by decide⟩

/-- C2 (amended): for every constructible `Subset` with at least one
sample, `from_dict(self.__dict__())` succeeds and reproduces the label
array exactly and the feature values in order; the rebuilt feature array
is reshaped to 2-d `(n, size/n)`, so its shape too is reproduced exactly
when the stored feature array was 2-dimensional. -/
theorem claim_C2_amended (X y : NDArray) (fs : List Int) (enc : Option Enc)
    (s : Subset) (h : mkSubset X y fs enc = some s) (hn : 1 ≤ s._X.len) :
    ∃ s', Subset.fromDict s.toDict = some s' ∧
      s'._y = s._y ∧ s'._X.data = s._X.data ∧
      s'._X.shape = [s._X.len, s._X.data.length / s._X.len] ∧
      (s._X.shape.length = 2 → s'._X = s._X) := by
  obtain ⟨hXne, hr, he, hy0, hlen⟩ := mkSubset_some _ _ _ _ _ h
  obtain ⟨hxh, hxp, hXdata, hXlen⟩ := mkSubset_some_X _ _ _ _ _ h
  obtain ⟨hy2, -⟩ := mkSubset_some_y _ _ _ _ _ h
  have hXne' : s._X.shape ≠ [] := by rw [hxh]; simp
  have hdvd : s._X.data.length % s._X.len = 0 := by
    have hpr : s._X.shape.prod = s._X.len * s._X.shape.tail.prod := by
      conv_lhs => rw [hxh]
      rw [List.prod_cons]
    rw [← hxp, hpr]
    exact Nat.mul_mod_right _ _
  have hres2 : npReshape s._X ((s._X.len : Int) :: [-1]) =
      some ⟨[s._X.len, s._X.data.length / s._X.len], s._X.data⟩ := by
    unfold npReshape
    rw [resolveShape_infer _ _ (by omega) hdvd]
    rfl
  have hyflat : flattenIf2 s._y = s._y := by
    unfold flattenIf2
    rw [if_neg hy2]
  refine ⟨⟨⟨[s._X.len, s._X.data.length / s._X.len], s._X.data⟩, s._y⟩,
    ?_, rfl, rfl, rfl, ?_⟩
  · show mkSubset s._X s._y [-1] none = _
    unfold mkSubset
    rw [if_neg hXne', hres2, Option.some_bind, hyflat]
    show (some s._y).bind _ = _
    rw [Option.some_bind, if_neg hy0, if_pos ?hl]
    case hl =>
      show s._X.len = s._y.len
      exact hlen
  · intro h2
    obtain ⟨t, ht⟩ : ∃ t, s._X.shape.tail = [t] := by
      cases htl : s._X.shape.tail with
      | nil => rw [hxh, htl] at h2; simp at h2
      | cons t rest =>
        cases rest with
        | nil => exact ⟨t, rfl⟩
        | cons u v => rw [hxh, htl] at h2; simp at h2
    have hq : s._X.data.length / s._X.len = t := by
      have htot : s._X.data.length = s._X.len * t := by
        rw [← hxp]
        conv_lhs => rw [hxh, ht]
        simp [List.prod_cons]
      rw [htot, Nat.mul_div_cancel_left _ (by omega)]
    calc (⟨[s._X.len, s._X.data.length / s._X.len], s._X.data⟩ : NDArray)
        = ⟨s._X.shape, s._X.data⟩ := by rw [hq, hxh, ht]
      _ = s._X := rfl

/-- C4 counterexample: on a 5-sample `Subset` with `size = 0`, the claim
predicts a returned `Subset` of length `min(0, 5) = 0`, but the code
raises instead — the empty row selection cannot be reshaped to
`(0, -1)` by numpy, so `sampled` fails (the same happens for a fraction
whose floor is 0, e.g. `0.1`). -/
theorem claim_C4_counterexample :
    S5.length = 5 ∧ sampleCount S5.length (.int 0) = 0 ∧
    S5.sampled (.int 0) [] = none :=
  ⟨by decide, by decide, by decide⟩

/-- C4 (amended): on a well-formed `Subset`, whenever the computed
sample count is at least 1 and the draw is valid, `sampled` returns a
`Subset` of exactly that length, where the count is `min(size, n)` for
an integer `size` and `floor(size * n)` for a float `size` in `(0, 1]`
(the fraction clamped to at most 1); a computed count of 0 instead
fails, as the counterexample shows. -/
theorem claim_C4_amended (s : Subset) (size : PySize) (idx : List Nat)
    (hwf : s.WF)
    (hlen : (idx.length : Int) = sampleCount s.length size)
    (hnd : idx.Nodup) (hb : ∀ i ∈ idx, i < s.length)
    (hpos : 1 ≤ idx.length) :
    ∃ s', s.sampled size idx = some s' ∧
      (s'.length : Int) = sampleCount s.length size ∧
      (∀ k : Int, size = .int k →
        sampleCount s.length size = min (s.length : Int) k) ∧
      ∀ r : ℚ, size = .float r → 0 < r → r ≤ 1 →
        sampleCount s.length size = ⌊(s.length : ℚ) * r⌋ := by
  have heval := sampled_eq s size idx hwf hlen hnd hb hpos
  refine ⟨_, heval, ?_, ?_, ?_⟩
  · show ((min idx.length idx.length : Nat) : Int) = sampleCount s.length size
    rw [Nat.min_self]
    exact hlen
  · intro k hk
    subst hk
    rfl
  · intro r hr h0 h1
    subst hr
    show pyInt ((s.length : ℚ) * min r 1) = ⌊(s.length : ℚ) * r⌋
    rw [min_eq_left h1]
    unfold pyInt
    rw [if_neg (not_lt.2 (mul_nonneg (by positivity) (le_of_lt h0)))]

/-- C5: every row of a successfully sampled `Subset` is a row of the
parent at a distinct parent index (the draw is duplicate free and within
bounds), and its labels are exactly the parent's stored label values at
those indices — no encoder is carried over or re-applied. -/
theorem claim_C5 (s : Subset) (size : PySize) (idx : List Nat)
    (s' : Subset) (hwf : s.WF) (h : s.sampled size idx = some s') :
    idx.Nodup ∧ (∀ i ∈ idx, i < s.length) ∧
    s'._y.data = idx.map (fun i => s._y.data.getD i 0) ∧
    ∀ j, (hj : j < idx.length) →
      s'._X.row j = s._X.row (idx.get ⟨j, hj⟩) := by
  obtain ⟨hnd, hb, hpos, hleni, hs'⟩ := sampled_some s size idx s' hwf h
  subst hs'
  obtain ⟨hxp, hxh, hyd, hxy⟩ := hwf
  refine ⟨hnd, hb, rfl, ?_⟩
  intro j hj
  have hbX : ∀ i ∈ idx, i < s._X.len := fun i hi =>
    lt_of_lt_of_le (hb i hi) (Nat.min_le_left _ _)
  have hrows : ∀ b ∈ idx.map s._X.row, b.length = s._X.rowSize := by
    intro b hbm
    obtain ⟨i, hi, rfl⟩ := List.mem_map.1 hbm
    exact row_length s._X s._X.len s._X.shape.tail i hxh hxp (hbX i hi)
  show NDArray.row
    ⟨[idx.length, s._X.rowSize], (idx.map s._X.row).flatten⟩ j = _
  rw [row_of_block_array idx.length s._X.rowSize (idx.map s._X.row) j hrows
    (by simpa using hj)]
  simp only [List.get_eq_getElem, List.getElem_map]

/-- Witness for C1 at the concrete archive `A1`. -/
theorem claim_C1_witness :
    mkDataset A1 (some "reorder") = some (D1r, []) ∧
    ∃ e : Enc, D1r.encoder = some (some e) ∧ D1r.decoder = some (some e) ∧
      ∀ l ∈ A1.trainY.data, ∃ c : Int, e.encode1 l = some c ∧
        e.decode1 c = some l :=
  ⟨by decide, claim_C1 A1 D1r [] (by decide)⟩

/-- Witness for the amended C2 at the default-shape subset `S5`. -/
theorem claim_C2_amended_witness :
    ∃ s', Subset.fromDict S5.toDict = some s' ∧ s'._y = S5._y ∧
      s'._X.data = S5._X.data ∧
      s'._X.shape = [S5._X.len, S5._X.data.length / S5._X.len] ∧
      (S5._X.shape.length = 2 → s'._X = S5._X) :=
  claim_C2_amended ⟨[5, 2], [1, 2, 3, 4, 5, 6, 7, 8, 9, 10]⟩
    ⟨[5], [1, 2, 3, 4, 5]⟩ [-1] none S5 (by decide) (by decide)

/-- Witness for C3 at the concrete archive `A1`. -/
theorem claim_C3_witness :
    mkDataset A1 (some "shift") = some (D1s, []) ∧
    ∃ m1 m2 : Int, A1.trainY.data.min? = some m1 ∧
      A1.testY.data.min? = some m2 ∧
      D1s.encoder = some (some (.shiftEnc (min m1 m2))) ∧
      D1s.decoder = some (some (.shiftDec (min m1 m2))) ∧
      ∀ l : Int, l ∈ A1.trainY.data ∨ l ∈ A1.testY.data →
        (Enc.encode1 (.shiftEnc (min m1 m2)) l).bind
          (Enc.decode1 (.shiftDec (min m1 m2))) = some l :=
  ⟨by decide, claim_C3 A1 D1s [] (by decide)⟩

/-- Witness for the amended C4: sampling 3 of 5 rows. -/
theorem claim_C4_amended_witness :
    ∃ s', S5.sampled (.int 3) [1, 2, 3] = some s' ∧
      (s'.length : Int) = sampleCount S5.length (.int 3) ∧
      (∀ k : Int, (PySize.int 3) = .int k →
        sampleCount S5.length (.int 3) = min (S5.length : Int) k) ∧
      ∀ r : ℚ, (PySize.int 3) = .float r → 0 < r → r ≤ 1 →
        sampleCount S5.length (.int 3) = ⌊(S5.length : ℚ) * r⌋ :=
  claim_C4_amended S5 (.int 3) [1, 2, 3] (by decide) (by decide) (by decide)
    (by decide) (by decide)

/-- Witness for C5: the draw `[3, 1]` of 2 of 5 rows. -/
theorem claim_C5_witness :
    ([3, 1] : List Nat).Nodup ∧ (∀ i ∈ ([3, 1] : List Nat), i < S5.length) ∧
    S5s._y.data = ([3, 1] : List Nat).map (fun i => S5._y.data.getD i 0) ∧
    ∀ j, (hj : j < ([3, 1] : List Nat).length) →
      S5s._X.row j = S5._X.row (([3, 1] : List Nat).get ⟨j, hj⟩) :=
  claim_C5 S5 (.int 2) [3, 1] S5s (by decide) (by decide)

/-- Witness for C6: a matched 3-sample construction and a mismatched
3-vs-2 construction. -/
theorem claim_C6_witness :
    (∃ s, mkSubset ⟨[3, 2], [1, 2, 3, 4, 5, 6]⟩ ⟨[3], [7, 8, 9]⟩ [-1]
        none = some s ∧ s.length = 3) ∧
    mkSubset ⟨[3, 2], [1, 2, 3, 4, 5, 6]⟩ ⟨[2], [7, 8]⟩ [-1] none = none :=
  ⟨(claim_C6 ⟨[3, 2], [1, 2, 3, 4, 5, 6]⟩ ⟨[3], [7, 8, 9]⟩ [-1] 3).1
      (by decide) (by decide) (by decide) ⟨[3, 2], [1, 2, 3, 4, 5, 6]⟩
      (by decide),
   (claim_C6 ⟨[3, 2], [1, 2, 3, 4, 5, 6]⟩ ⟨[2], [7, 8]⟩ [-1] 3).2 none
      ⟨[3, 2], [1, 2, 3, 4, 5, 6]⟩ ⟨[2], [7, 8]⟩ (by decide) (by decide)
      (by decide)⟩

/-- Witness for C7: `sample_train(1)` and `sample_test(1)` on the
concrete dataset `D1n`, with the draw `[0]`. -/
theorem claim_C7_witness :
    ((∃ t st, D1n._train = some (some t) ∧
        t.sampled (.int 1) [0] = some st ∧
        D1n'._sampled_train = some st ∧
        D1n'._train_size = some st.length) ∧
      D1n'._train = D1n._train ∧ D1n'._test = D1n._test ∧
      D1n'._sampled_test = D1n._sampled_test ∧
      D1n'._test_size = D1n._test_size ∧ D1n'._mapping = D1n._mapping ∧
      D1n'._encoder = D1n._encoder ∧ D1n'._decoder = D1n._decoder) ∧
    ((∃ t st, D1n._test = some (some t) ∧
        t.sampled (.int 1) [0] = some st ∧
        D1n''._sampled_test = some st ∧
        D1n''._test_size = some st.length) ∧
      D1n''._test = D1n._test ∧ D1n''._train = D1n._train ∧
      D1n''._sampled_train = D1n._sampled_train ∧
      D1n''._train_size = D1n._train_size ∧
      D1n''._mapping = D1n._mapping ∧ D1n''._encoder = D1n._encoder ∧
      D1n''._decoder = D1n._decoder) :=
  ⟨(claim_C7 D1n (.int 1) [0]).1 D1n' (by decide),
   (claim_C7 D1n (.int 1) [0]).2 D1n'' (by decide)⟩

/-- Witness for C8 at the concrete archive `A1` with the unrecognized
policy `"bogus"`. -/
theorem claim_C8_witness :
    ((mkDataset A1 (some "bogus")).isSome ↔
      ((mkSubset A1.trainX A1.trainY [-1] none).isSome ∧
       (mkSubset A1.testX A1.testY [-1] none).isSome)) ∧
    (["unrecognized label order bogus"] =
        (match (some "bogus" : Option String) with
         | none => []
         | some s => ["unrecognized label order " ++ s]) ∧
      D1n.encoder = some none ∧ D1n.decoder = some none ∧
      (∃ tr, D1n._train = some (some tr) ∧ tr._y.data = A1.trainY.data ∧
        D1n._sampled_train = some tr) ∧
      (∃ te, D1n._test = some (some te) ∧ te._y.data = A1.testY.data ∧
        D1n._sampled_test = some te)) :=
  ⟨(claim_C8 A1 (some "bogus") (by decide) (by decide)).1,
   (claim_C8 A1 (some "bogus") (by decide) (by decide)).2 D1n
     ["unrecognized label order bogus"] (by decide)⟩

/-- Witness for C9: in-range access at 2 and out-of-range accesses at 5
and -1 on the 5-sample subset `S5`. -/
theorem claim_C9_witness :
    S5.getItem 2 = some (S5._X.rowArr (2 : Int).toNat,
      S5._y.rowArr (2 : Int).toNat) ∧
    S5.getItem 5 = none ∧ S5.getItem (-1) = none :=
  ⟨(claim_C9 S5 2).1 (by decide) (by decide),
   (claim_C9 S5 5).2 (by decide),
   (claim_C9 S5 (-1)).2 (by decide)⟩

end Preprocess
